import Mathlib

/-!
# gopenpgp, package crypto: message.go

A shallow embedding of the orchestration code of crypto/message.go
(decryptCore, decryptMessageVerify, processSignatureExpiration, EncryptMessage)
and theorems about it.

Conventions of the embedding

* Go int64 values are integers; every int64 addition and subtraction of the
  source is wrapped with wrapInt64 (two's complement, 64 bit).
* A Go pointer that may be nil is an Option; dereferencing nil is the outcome
  Run.panicked.
* A Go call returning (value, error) with the usual contract that exactly one
  of the two is set is an Except; where the source keeps the pair apart
  (EncryptCore, whose error is dropped) the pair is kept.
* The OpenPGP engine (golang.org/x/crypto/openpgp, the armor and internal
  packages) is not part of the sources; its functions and constants are the
  fields of the structure Engine and every theorem holds for every engine.
* Private keys are unlocked in place by the Go code. The embedding passes the
  keys as values: a loop over pointers becomes a function returning the
  updated keys.
-/

namespace Gopenpgp

/-! ## Go values -/

/-- Outcome of running Go code that may dereference a nil pointer. -/
inductive Run (α : Type) where
  | done (a : α)
  | panicked
  deriving DecidableEq, Repr

/-- Go error value: an interface value, compared by dynamic type and value;
the method Error() yields the text. -/
structure GoError where
  dynType : String
  text : String
  deriving DecidableEq, Repr

/-- The method Error() of a Go error. -/
def GoError.Error (e : GoError) : String := e.text

/-- Go errors.New. -/
def errorsNew (text : String) : GoError := ⟨"*errors.errorString", text⟩

/-- Largest int64, math.MaxInt64. -/
def maxInt64 : Int := 2 ^ 63 - 1

/-- Two's complement wrap-around of int64 arithmetic. -/
def wrapInt64 (x : Int) : Int := (x + 2 ^ 63) % 2 ^ 64 - 2 ^ 63

/-- Go len of a string: its number of bytes. -/
def len (s : String) : Nat := s.utf8ByteSize

/-! ## Data model (types of the OpenPGP engine, fields used by message.go) -/

/-- The engine type packet.PrivateKey: the key id and the flag telling whether
the private material is still passphrase-encrypted. -/
structure PrivateKey where
  KeyId : Nat
  Encrypted : Bool
  deriving DecidableEq, Repr

/-- The engine type openpgp.Subkey. -/
structure Subkey where
  KeyId : Nat
  PrivateKey : Option PrivateKey
  deriving DecidableEq, Repr

/-- The engine type openpgp.Entity. -/
structure Entity where
  KeyId : Nat
  PrivateKey : Option PrivateKey
  Subkeys : List Subkey
  deriving DecidableEq, Repr

/-- The engine type openpgp.EntityList, a slice of entities in ring order. -/
abbrev EntityList := List Entity

/-- The repository type KeyRing. -/
structure KeyRing where
  entities : EntityList
  deriving DecidableEq, Repr

/-- The engine type openpgp.Key, what a key-id lookup returns. -/
structure Key where
  Entity : Entity
  KeyId : Nat
  deriving DecidableEq, Repr

/-- The engine type packet.Signature: CreationTime is CreationTime.Unix(), an
int64; KeyLifetimeSecs is a pointer to a uint32. -/
structure Signature where
  CreationTime : Int
  KeyLifetimeSecs : Option Nat
  deriving DecidableEq, Repr

/-- An io.Reader holding a whole body: what ioutil.ReadAll gets out of it. -/
structure Reader where
  data : String
  err : Option GoError
  deriving DecidableEq, Repr

/-- Go ioutil.ReadAll. -/
def ReadAll (r : Reader) : Except GoError String :=
  match r.err with
  | some e => .error e
  | none => .ok r.data

/-- The engine type openpgp.MessageDetails. SignatureError and Signature hold
the values the engine has set once the body has been read to its end. -/
structure MessageDetails where
  IsSigned : Bool
  SignedByKeyId : Nat
  SignedBy : Option Key
  UnverifiedBody : Reader
  SignatureError : Option GoError
  Signature : Option Signature
  deriving DecidableEq, Repr

/-- The engine type armor.Block. -/
structure Block where
  Body : List UInt8
  deriving DecidableEq, Repr

/-- The armor writer armor.Encode opens on the output buffer. -/
structure ArmorWriter where
  blockType : String
  headers : List (String × String)
  deriving DecidableEq, Repr

/-- Modelled from the spec: the verification verdicts ok, failed, noVerifier
and notSigned; the constants of package crypto that name them are declared
outside the sources at hand. -/
inductive Verdict where
  | ok
  | notSigned
  | noVerifier
  | failed
  deriving DecidableEq, Repr

/-- Modelled from the spec: the result record models.DecryptSignedVerify
(plaintext, verdict, message); its declaration is outside the sources at
hand. -/
structure DecryptSignedVerify where
  Plaintext : String
  Verify : Verdict
  Message : String
  deriving DecidableEq, Repr

/-- The collaborators of message.go that are not part of the sources. -/
structure Engine where
  /-- The value errors.ErrSignatureExpired. -/
  ErrSignatureExpired : GoError
  /-- The constant internal.CreationTimeOffset, an int64. -/
  CreationTimeOffset : Int
  /-- The method PrivateKey.Decrypt: the key after the call and the error. -/
  Decrypt : PrivateKey → String → PrivateKey × Option GoError
  /-- The function openpgp.ReadKeyRing; the slice it returns may be nil. -/
  ReadKeyRing : List UInt8 → Except GoError (Option EntityList)
  /-- The method EntityList.KeysById. -/
  KeysById : EntityList → Nat → List Key
  /-- The function internal.Unarmor. -/
  Unarmor : String → Except GoError Block
  /-- The function openpgp.ReadMessage, given body, key ring and config time. -/
  ReadMessage : List UInt8 → EntityList → Int → Except GoError MessageDetails
  /-- The function internal.TrimNewlines. -/
  TrimNewlines : String → String
  /-- The constant armorUtils.PGP_MESSAGE_HEADER. -/
  PGP_MESSAGE_HEADER : String
  /-- The constant internal.ArmorHeaders. -/
  ArmorHeaders : List (String × String)
  /-- The function armor.Encode on the output buffer. -/
  armorEncode : String → List (String × String) → Except GoError ArmorWriter
  /-- The repository function EncryptCore, whose code is outside the sources at
  hand: the plaintext writer (nil, or the content the output buffer holds once
  the given plaintext has been written and both writers closed) and the
  error. -/
  EncryptCore : ArmorWriter → EntityList → Option Entity → String → Bool → Int →
    Option (String → String) × Option GoError

/-- The repository type PmCrypto: the clock pm.getTimeGenerator() hands to the
engine (the method is outside the sources at hand). -/
structure PmCrypto where
  timeGenerator : Int

/-! ## processSignatureExpiration -/

/-- Source: processSignatureExpiration (message.go, lines 155 to 171). The
record after the call, or a panic when md.Signature is nil where it is read. -/
def processSignatureExpiration (eng : Engine) (md : MessageDetails) (verifyTime : Int) :
    Run MessageDetails :=
  if md.SignatureError = some eng.ErrSignatureExpired then
    if verifyTime > 0 then
      match md.Signature with
      | none => .panicked
      | some sig =>
        let created := sig.CreationTime
        let expires :=
          match sig.KeyLifetimeSecs with
          | some secs => wrapInt64 ((secs : Int) + created)
          | none => maxInt64
        if wrapInt64 (created - eng.CreationTimeOffset) ≤ verifyTime ∧ verifyTime ≤ expires then
          .done { md with SignatureError := none }
        else
          .done md
    else
      -- verifyTime = 0: time check disabled, everything is okay
      .done { md with SignatureError := none }
  else
    .done md

/-! ## decryptCore -/

/-- Source: decryptCore, lines 74 to 78, the loop over the subkeys of one
entity. -/
def decryptCore_unlockSubkeys (eng : Engine) (rawPwd : String) : List Subkey → List Subkey
  | [] => []
  | sub :: rest =>
    let sub :=
      match sub.PrivateKey with
      | some pk =>
        if pk.Encrypted then { sub with PrivateKey := some (eng.Decrypt pk rawPwd).1 } else sub
      | none => sub
    sub :: decryptCore_unlockSubkeys eng rawPwd rest

/-- Source: decryptCore, lines 68 to 79, the unlock loop over the entities of the
decryption ring; the error Decrypt returns is dropped. -/
def decryptCore_unlock (eng : Engine) (rawPwd : String) : EntityList → EntityList
  | [] => []
  | e :: rest =>
    let e :=
      match e.PrivateKey with
      | some pk =>
        if pk.Encrypted then { e with PrivateKey := some (eng.Decrypt pk rawPwd).1 } else e
      | none => e
    let e := { e with Subkeys := decryptCore_unlockSubkeys eng rawPwd e.Subkeys }
    e :: decryptCore_unlock eng rawPwd rest

/-- Source: decryptCore (message.go, lines 65 to 96); timeFunc is the instant
the given clock returns. The result is (md, nil) or (nil, err). -/
def decryptCore (eng : Engine) (encryptedText : String) (additionalEntries : Option EntityList)
    (privKeyEntries : EntityList) (passphrase : String) (timeFunc : Int) :
    Except GoError MessageDetails :=
  let rawPwd := passphrase
  let privKeyEntries := decryptCore_unlock eng rawPwd privKeyEntries
  let privKeyEntries :=
    match additionalEntries with
    | some entries => entries.foldl (fun acc e => acc ++ [e]) privKeyEntries
    | none => privKeyEntries
  match eng.Unarmor encryptedText with
  | .error err => .error err
  | .ok block => eng.ReadMessage block.Body privKeyEntries timeFunc

/-! ## decryptMessageVerify -/

/-- Source: decryptMessageVerify, lines 129 to 150: the verdict from the
message details after the expiration step; out arrives with the verdict set
in lines 104 to 117. -/
def decryptMessageVerify_verdict (eng : Engine) (out : DecryptSignedVerify)
    (verifierEntries : Option EntityList) (md : MessageDetails) (b : String) :
    DecryptSignedVerify :=
  let out := { out with Plaintext := b }
  if md.IsSigned then
    if md.SignedBy.isSome then
      match verifierEntries with
      | some entries =>
        let found := eng.KeysById entries md.SignedByKeyId
        if found.length > 0 then
          match md.SignatureError with
          | none => { out with Verify := .ok }
          | some e => { out with Message := e.Error, Verify := .failed }
        else
          out
      | none => { out with Verify := .noVerifier }
    else
      { out with Verify := .noVerifier }
  else
    { out with Verify := .notSigned }

/-- Source: decryptMessageVerify (message.go, lines 101 to 152). The result is
(out, nil), (nil, err) or a nil-pointer panic. The error of decryptCore is
overwritten in line 122 before anything reads it, and md is dereferenced in
line 121. -/
def decryptMessageVerify (eng : Engine) (encryptedText : String) (verifierKey : List UInt8)
    (privateKeyRing : Option KeyRing) (passphrase : String) (verifyTime : Int) :
    Run (Except GoError DecryptSignedVerify) :=
  let out : DecryptSignedVerify := { Plaintext := "", Verify := .failed, Message := "" }
  let parsed : Except GoError (Option EntityList × DecryptSignedVerify) :=
    if verifierKey.length > 0 then
      match eng.ReadKeyRing verifierKey with
      | .error err => .error err
      | .ok entries => .ok (entries, out)
    else
      .ok (none, { out with Verify := .noVerifier })
  match parsed with
  | .error err => .done (.error err)
  | .ok (verifierEntries, out) =>
    match privateKeyRing with
    | none => .panicked
    | some ring =>
      match decryptCore eng encryptedText verifierEntries ring.entities passphrase 0 with
      | .error _ => .panicked
      | .ok md =>
        match ReadAll md.UnverifiedBody with
        | .error err => .done (.error err)
        | .ok b =>
          match processSignatureExpiration eng md verifyTime with
          | .panicked => .panicked
          | .done md => .done (.ok (decryptMessageVerify_verdict eng out verifierEntries md b))

/-! ## EncryptMessage -/

/-- Source: EncryptMessage, lines 223 to 234, the scan for the signer; the
entity returned carries the key as the unlock attempt left it. -/
def EncryptMessage_signerLoop (eng : Engine) (passphrase : String) : EntityList → Option Entity
  | [] => none
  | e :: rest =>
    match e.PrivateKey with
    | some pk =>
      let pk := if pk.Encrypted then (eng.Decrypt pk passphrase).1 else pk
      if !pk.Encrypted then some { e with PrivateKey := some pk }
      else EncryptMessage_signerLoop eng passphrase rest
    | none => EncryptMessage_signerLoop eng passphrase rest

/-- Source: EncryptMessage, lines 241 to 246: the call of EncryptCore, whose
error is dropped, the write and the closes. -/
def EncryptMessage_finish (eng : Engine) (pm : PmCrypto) (w : ArmorWriter)
    (publicKey : Option KeyRing) (signEntity : Option Entity) (plainText : String) :
    Run (String × Option GoError) :=
  match publicKey with
  | none => .panicked
  | some pub =>
    match (eng.EncryptCore w pub.entities signEntity "" false pm.timeGenerator).1 with
    | none => .panicked
    | some ew => .done (ew plainText, none)

/-- Source: EncryptMessage (message.go, lines 208 to 247). The result is the
returned pair (ciphertext, error) or a nil-pointer panic. -/
def EncryptMessage (eng : Engine) (pm : PmCrypto) (plainText : String)
    (publicKey privateKey : Option KeyRing) (passphrase : String) (trim : Bool) :
    Run (String × Option GoError) :=
  let plainText := if trim then eng.TrimNewlines plainText else plainText
  match eng.armorEncode eng.PGP_MESSAGE_HEADER eng.ArmorHeaders with
  | .error err => .done ("", some err)
  | .ok w =>
    if len passphrase > 0 then
      match privateKey with
      | none => .panicked
      | some ring =>
        if ring.entities.length > 0 then
          match EncryptMessage_signerLoop eng passphrase ring.entities with
          | none => .done ("", some (errorsNew "cannot sign message, signer key is not unlocked"))
          | some e => EncryptMessage_finish eng pm w publicKey (some e) plainText
        else
          EncryptMessage_finish eng pm w publicKey none plainText
    else
      EncryptMessage_finish eng pm w publicKey none plainText

/-! ## The words of the specification -/

/-- The allowed validity window of the specification: it starts at
signatureCreationTime - creationTimeOffset and ends at
signatureCreationTime + keyLifetimeSeconds, or never when no lifetime is
declared. Plain integers, no wrap-around. -/
def InValidityWindow (eng : Engine) (sig : Signature) (verifyInstant : Int) : Prop :=
  sig.CreationTime - eng.CreationTimeOffset ≤ verifyInstant ∧
    ∀ secs : Nat, sig.KeyLifetimeSecs = some secs → verifyInstant ≤ sig.CreationTime + secs

/-- The two bounds of the window are int64 values: computing them does not
wrap around. -/
def WindowRepresentable (eng : Engine) (sig : Signature) : Prop :=
  (-(2 ^ 63 : Int) ≤ sig.CreationTime - eng.CreationTimeOffset ∧
    sig.CreationTime - eng.CreationTimeOffset ≤ maxInt64) ∧
  ∀ secs : Nat, sig.KeyLifetimeSecs = some secs →
    -(2 ^ 63 : Int) ≤ sig.CreationTime + secs ∧ sig.CreationTime + secs ≤ maxInt64

/-- The key as the unlock attempt with the passphrase leaves it: the result of
Decrypt when the key was encrypted, the key itself when it was not. -/
def keyAfterAttempt (eng : Engine) (passphrase : String) (pk : PrivateKey) : PrivateKey :=
  if pk.Encrypted then (eng.Decrypt pk passphrase).1 else pk

/-- An entity qualifies as signer when it has private key material and that
key is unlocked after the unlock attempt with the passphrase (already
unlocked, or successfully decrypted). -/
def qualifiesAsSigner (eng : Engine) (passphrase : String) (e : Entity) : Bool :=
  match e.PrivateKey with
  | some pk => !(keyAfterAttempt eng passphrase pk).Encrypted
  | none => false

/-- What the unlock loop owes one key slot, before and after the loop: an
absent key stays absent, an unencrypted key is not touched, an encrypted key
is replaced by the result of the decryption attempt, and a key the passphrase
unlocks is unlocked afterwards. -/
def KeyAfterUnlock (eng : Engine) (passphrase : String)
    (before after : Option PrivateKey) : Prop :=
  (before = none → after = none) ∧
  (∀ pk, before = some pk → pk.Encrypted = false → after = some pk) ∧
  (∀ pk, before = some pk → pk.Encrypted = true →
    after = some (eng.Decrypt pk passphrase).1) ∧
  (∀ pk, before = some pk → (eng.Decrypt pk passphrase).1.Encrypted = false →
    ∃ pk', after = some pk' ∧ pk'.Encrypted = false)

/-! ## Sample engine and inputs for the closed statements -/

/-- A value for errors.ErrSignatureExpired. -/
def sampleExpired : GoError := ⟨"errors.signatureExpiredError", "openpgp: signature expired"⟩

/-- A bad-signature error of the engine, different from the expired one. -/
def sampleBadSignature : GoError := ⟨"errors.SignatureError", "openpgp: invalid signature: hash tag does not match"⟩

/-- A sample engine: two days of grace; the passphrase "secret" unlocks the
keys with an odd key id and no other; every key block parses to the ring
holding the public entity 7; every non-empty text unarmors; every message
reads as unsigned with body "hello". -/
def sampleEngine : Engine where
  ErrSignatureExpired := sampleExpired
  CreationTimeOffset := 172800
  Decrypt := fun pk pw =>
    if pw = "secret" ∧ pk.KeyId % 2 = 1 then ({ pk with Encrypted := false }, none)
    else (pk, some ⟨"errors.StructuralError", "private key checksum failure"⟩)
  ReadKeyRing := fun _ => .ok (some [{ KeyId := 7, PrivateKey := none, Subkeys := [] }])
  KeysById := fun el id =>
    (el.filter (fun e => e.KeyId = id)).map (fun e => { Entity := e, KeyId := e.KeyId })
  Unarmor := fun text =>
    if text = "" then .error ⟨"*errors.errorString", "EOF"⟩ else .ok { Body := [1] }
  ReadMessage := fun _ _ _ =>
    .ok { IsSigned := false, SignedByKeyId := 0, SignedBy := none,
          UnverifiedBody := { data := "hello", err := none },
          SignatureError := none, Signature := none }
  TrimNewlines := fun s => s
  PGP_MESSAGE_HEADER := "PGP MESSAGE"
  ArmorHeaders := []
  armorEncode := fun t h => .ok { blockType := t, headers := h }
  EncryptCore := fun _ _ signer _ _ _ =>
    (some (fun pt => (if signer.isSome then "signed:" else "plain:") ++ pt), none)

/-- Message details of a signed message whose signature the engine reports as
expired: created at 1000000, key lifetime 3600 seconds. -/
def sampleExpiredDetails : MessageDetails where
  IsSigned := true
  SignedByKeyId := 7
  SignedBy := some { Entity := { KeyId := 7, PrivateKey := none, Subkeys := [] }, KeyId := 7 }
  UnverifiedBody := { data := "hello", err := none }
  SignatureError := some sampleExpired
  Signature := some { CreationTime := 1000000, KeyLifetimeSecs := some 3600 }

/-- The sample engine, reading every message as the given message details. -/
def sampleEngineReading (md : MessageDetails) : Engine :=
  { sampleEngine with ReadMessage := fun _ _ _ => .ok md }

/-- Message details of a signed message whose signer key-id 7 the engine could
not resolve to a usable signing key (SignedBy is nil). -/
def sampleUnresolvedDetails : MessageDetails where
  IsSigned := true
  SignedByKeyId := 7
  SignedBy := none
  UnverifiedBody := { data := "hello", err := none }
  SignatureError := none
  Signature := none

/-- Message details of a message signed by key 9, which the engine resolved
from the (unlocked) decryption ring; the signature is good. -/
def sampleOwnKeyDetails : MessageDetails where
  IsSigned := true
  SignedByKeyId := 9
  SignedBy := some { Entity := { KeyId := 9, PrivateKey := some ⟨9, false⟩, Subkeys := [] },
                     KeyId := 9 }
  UnverifiedBody := { data := "hello", err := none }
  SignatureError := none
  Signature := some { CreationTime := 1000000, KeyLifetimeSecs := none }

/-- Message details of a message signed by key-id 8, a key the engine does not
know (SignedBy is nil, nothing was verified). -/
def sampleUnknownSignerDetails : MessageDetails where
  IsSigned := true
  SignedByKeyId := 8
  SignedBy := none
  UnverifiedBody := { data := "hello", err := none }
  SignatureError := none
  Signature := none

/-- A decryption ring: entity 9 with a locked private key. -/
def sampleDecryptionRing : KeyRing :=
  { entities := [{ KeyId := 9, PrivateKey := some ⟨9, true⟩, Subkeys := [] }] }

/-- A signing ring: entity 2 locked (the passphrase "secret" does not unlock
it), entity 4 without private key, entity 5 locked (the passphrase unlocks
it), entity 3 already unlocked. -/
def sampleSigningRing : KeyRing :=
  { entities := [
      { KeyId := 2, PrivateKey := some ⟨2, true⟩, Subkeys := [] },
      { KeyId := 4, PrivateKey := none, Subkeys := [] },
      { KeyId := 5, PrivateKey := some ⟨5, true⟩, Subkeys := [⟨6, some ⟨6, true⟩⟩] },
      { KeyId := 3, PrivateKey := some ⟨3, false⟩, Subkeys := [] }] }

/-- A ring of recipients. -/
def samplePublicRing : KeyRing :=
  { entities := [{ KeyId := 7, PrivateKey := none, Subkeys := [] }] }

/-! ## Lemmas -/

theorem wrapInt64_eq_self (x : Int) (hlo : -(2 ^ 63 : Int) ≤ x) (hhi : x ≤ maxInt64) :
    wrapInt64 x = x := by
  unfold wrapInt64
  unfold maxInt64 at hhi
  norm_num at hlo hhi ⊢
  omega

/-! ## Theorems on processSignatureExpiration -/

/-- C1, what the code does: when the signature error is the expired condition,
every negative verifyInstant takes the else branch of line 166, whose comment
names verifyTime = 0 alone, and the error is cleared without the window being
looked at and without the signature packet being read. The claim says that a
verifyInstant different from 0 clears the error only inside the window. -/
theorem processSignatureExpiration_negative_clears (eng : Engine) (md : MessageDetails)
    (verifyTime : Int)
    (hexp : md.SignatureError = some eng.ErrSignatureExpired)
    (hneg : verifyTime < 0) :
    processSignatureExpiration eng md verifyTime = .done { md with SignatureError := none } := by
  have hnot : ¬ verifyTime > 0 := by omega
  simp only [processSignatureExpiration, hexp, hnot, if_true, if_false]

/-- Witness of C1, the failing input: the signature error is the expired
condition, the signature was created at 1000000 with a lifetime of 3600
seconds, the grace is 172800 seconds; the call with verifyInstant = -1
(different from 0, and outside the window, which runs from 827200 to 1003600)
clears the error. -/
theorem processSignatureExpiration_negative_instant_clears :
    sampleExpiredDetails.SignatureError = some sampleEngine.ErrSignatureExpired ∧
    (-1 : Int) ≠ 0 ∧
    ¬ InValidityWindow sampleEngine ⟨1000000, some 3600⟩ (-1) ∧
    processSignatureExpiration sampleEngine sampleExpiredDetails (-1) =
      .done { sampleExpiredDetails with SignatureError := none } :=
  ⟨rfl, by decide,
    fun h => by
      have h1 := h.1
      simp [sampleEngine] at h1,
    processSignatureExpiration_negative_clears sampleEngine sampleExpiredDetails (-1) rfl
      (by decide)⟩

/-- Positive instants: when the signature error is the expired condition, the
signature packet is present, verifyInstant is a positive int64 and the two
bounds of the window are int64 values, processSignatureExpiration returns the
record with the error cleared if and only if verifyInstant lies in the closed
window from signatureCreationTime - CreationTimeOffset to
signatureCreationTime + keyLifetimeSeconds (no upper bound without a declared
lifetime); outside the window the record is returned as it was, the error
still the expired condition. -/
theorem processSignatureExpiration_window (eng : Engine) (md : MessageDetails)
    (sig : Signature) (verifyTime : Int)
    (hexp : md.SignatureError = some eng.ErrSignatureExpired)
    (hsig : md.Signature = some sig)
    (hpos : 0 < verifyTime) (hint : verifyTime ≤ maxInt64)
    (hrep : WindowRepresentable eng sig) :
    ∃ md', processSignatureExpiration eng md verifyTime = .done md' ∧
      (md'.SignatureError = none ↔ InValidityWindow eng sig verifyTime) ∧
      (InValidityWindow eng sig verifyTime → md' = { md with SignatureError := none }) ∧
      (¬ InValidityWindow eng sig verifyTime →
        md' = md ∧ md'.SignatureError = some eng.ErrSignatureExpired) := by
  obtain ⟨⟨hlo, hhi⟩, hlife⟩ := hrep
  have hstart := wrapInt64_eq_self _ hlo hhi
  have hwin : InValidityWindow eng sig verifyTime ↔
      (wrapInt64 (sig.CreationTime - eng.CreationTimeOffset) ≤ verifyTime ∧
        verifyTime ≤ (match sig.KeyLifetimeSecs with
          | some secs => wrapInt64 ((secs : Int) + sig.CreationTime)
          | none => maxInt64)) := by
    rw [hstart]
    unfold InValidityWindow
    cases hk : sig.KeyLifetimeSecs with
    | none => simp [hint]
    | some secs =>
      have hb := hlife secs hk
      have hend : wrapInt64 ((secs : Int) + sig.CreationTime) = sig.CreationTime + secs := by
        rw [add_comm]
        exact wrapInt64_eq_self _ hb.1 hb.2
      simp [hend]
  by_cases hw : InValidityWindow eng sig verifyTime
  · refine ⟨{ md with SignatureError := none }, ?_, ?_, ?_, ?_⟩
    · have hc := hwin.mp hw
      simp only [processSignatureExpiration, hexp, hsig, if_true, gt_iff_lt, hpos]
      rw [if_pos hc]
    · simp [hw]
    · intro _; rfl
    · intro h; exact absurd hw h
  · refine ⟨md, ?_, ?_, ?_, ?_⟩
    · have hc : ¬ _ := fun h => hw (hwin.mpr h)
      simp only [processSignatureExpiration, hexp, hsig, if_true, gt_iff_lt, hpos]
      rw [if_neg hc]
    · simp [hw, hexp]
    · intro h; exact absurd h hw
    · intro _; exact ⟨rfl, hexp⟩

/-- Positive instants, an instance: a signature created at 1000000 with a
lifetime of 3600 seconds, checked at the instant 1000100. -/
theorem processSignatureExpiration_window_witness :
    ∃ md', processSignatureExpiration sampleEngine sampleExpiredDetails 1000100 = .done md' ∧
      (md'.SignatureError = none ↔
        InValidityWindow sampleEngine ⟨1000000, some 3600⟩ 1000100) ∧
      (InValidityWindow sampleEngine ⟨1000000, some 3600⟩ 1000100 →
        md' = { sampleExpiredDetails with SignatureError := none }) ∧
      (¬ InValidityWindow sampleEngine ⟨1000000, some 3600⟩ 1000100 →
        md' = sampleExpiredDetails ∧ md'.SignatureError = some sampleEngine.ErrSignatureExpired) :=
  processSignatureExpiration_window sampleEngine sampleExpiredDetails ⟨1000000, some 3600⟩ 1000100
    rfl rfl (by decide) (by decide)
    ⟨⟨by decide, by decide⟩, fun secs h => by
      have : secs = 3600 := by simpa using h.symm
      subst this
      exact ⟨by decide, by decide⟩⟩

/-- C2: when the signature error is the expired condition,
processSignatureExpiration called with verifyInstant = 0 returns the record
with the error cleared (nil), whatever the signature packet, its creation time
and its key lifetime are, and also when the packet is absent. -/
theorem processSignatureExpiration_zero_clears (eng : Engine) (md : MessageDetails)
    (hexp : md.SignatureError = some eng.ErrSignatureExpired) :
    processSignatureExpiration eng md 0 = .done { md with SignatureError := none } := by
  simp [processSignatureExpiration, hexp]

/-- Witness of C2: the sample expired signature, checked with the instant 0. -/
theorem processSignatureExpiration_zero_clears_witness :
    processSignatureExpiration sampleEngine sampleExpiredDetails 0 =
      .done { sampleExpiredDetails with SignatureError := none } :=
  processSignatureExpiration_zero_clears sampleEngine sampleExpiredDetails rfl

/-- C3: when the signature error is anything but the expired condition (nil, a
bad signature, an unknown key), processSignatureExpiration returns the record
unchanged for every verifyInstant, so the signature error is exactly what it
was and no other failure becomes valid. -/
theorem processSignatureExpiration_other_error_kept (eng : Engine) (md : MessageDetails)
    (verifyTime : Int) (hother : md.SignatureError ≠ some eng.ErrSignatureExpired) :
    processSignatureExpiration eng md verifyTime = .done md := by
  simp [processSignatureExpiration, hother]

/-- Witness of C3: a bad-signature error, checked at the instant 1000100, is
kept. -/
theorem processSignatureExpiration_other_error_kept_witness :
    processSignatureExpiration sampleEngine
        { sampleExpiredDetails with SignatureError := some sampleBadSignature } 1000100 =
      .done { sampleExpiredDetails with SignatureError := some sampleBadSignature } :=
  processSignatureExpiration_other_error_kept sampleEngine
    { sampleExpiredDetails with SignatureError := some sampleBadSignature } 1000100 (by decide)

/-! ## Theorems on decryptMessageVerify -/

theorem processSignatureExpiration_done_cases (eng : Engine) (md md' : MessageDetails)
    (verifyTime : Int) (h : processSignatureExpiration eng md verifyTime = .done md') :
    md' = md ∨ md' = { md with SignatureError := none } := by
  unfold processSignatureExpiration at h
  by_cases hexp : md.SignatureError = some eng.ErrSignatureExpired
  · by_cases hpos : verifyTime > 0
    · cases hs : md.Signature with
      | none => simp [hexp, hpos, hs] at h
      | some sig =>
        simp only [hexp, hpos, hs, if_true] at h
        split_ifs at h
        · right; exact (Run.done.inj h).symm
        · left; exact (Run.done.inj h).symm
    · simp only [hexp, hpos, if_true, if_false] at h
      right; exact (Run.done.inj h).symm
  · simp only [hexp, if_false] at h
    left; exact (Run.done.inj h).symm

theorem processSignatureExpiration_total (eng : Engine) (md : MessageDetails) (verifyTime : Int)
    (hwf : md.SignatureError = some eng.ErrSignatureExpired → md.Signature ≠ none) :
    ∃ md', processSignatureExpiration eng md verifyTime = .done md' := by
  unfold processSignatureExpiration
  by_cases hexp : md.SignatureError = some eng.ErrSignatureExpired
  · by_cases hpos : verifyTime > 0
    · cases hs : md.Signature with
      | none => exact absurd hs (hwf hexp)
      | some sig =>
        simp only [hexp, hpos, if_true]
        split_ifs
        · exact ⟨_, rfl⟩
        · exact ⟨_, rfl⟩
    · simp only [hexp, hpos, if_true, if_false]
      exact ⟨_, rfl⟩
  · simp only [hexp, if_false]
    exact ⟨_, rfl⟩

theorem processSignatureExpiration_frame (md md' : MessageDetails)
    (h : md' = md ∨ md' = { md with SignatureError := none }) :
    md'.IsSigned = md.IsSigned ∧ md'.SignedBy = md.SignedBy ∧
      md'.SignedByKeyId = md.SignedByKeyId := by
  rcases h with h | h <;> subst h <;> exact ⟨rfl, rfl, rfl⟩

/-- C4, counterexample: the message is signed by key-id 7, the supplied
verifier ring holds the entity 7 and the key-id lookup finds it, but the engine
resolved no signer key (SignedBy is nil): the verdict is noVerifier, neither ok
nor failed. -/
theorem decryptMessageVerify_unresolved_signer_noVerifier :
    (sampleEngineReading sampleUnresolvedDetails).ReadKeyRing [1] =
      .ok (some [{ KeyId := 7, PrivateKey := none, Subkeys := [] }]) ∧
    decryptCore (sampleEngineReading sampleUnresolvedDetails) "armored"
        (some [{ KeyId := 7, PrivateKey := none, Subkeys := [] }])
        sampleDecryptionRing.entities "secret" 0 = .ok sampleUnresolvedDetails ∧
    sampleUnresolvedDetails.IsSigned = true ∧
    0 < ((sampleEngineReading sampleUnresolvedDetails).KeysById
          [{ KeyId := 7, PrivateKey := none, Subkeys := [] }]
          sampleUnresolvedDetails.SignedByKeyId).length ∧
    decryptMessageVerify (sampleEngineReading sampleUnresolvedDetails) "armored" [1]
        (some sampleDecryptionRing) "secret" 0 =
      .done (.ok { Plaintext := "hello", Verify := .noVerifier, Message := "" }) := by
  refine ⟨rfl, ?_, rfl, by decide, ?_⟩
  · simp [decryptCore, sampleEngineReading, sampleEngine]
  · simp [decryptMessageVerify, decryptCore, sampleEngineReading, sampleEngine, ReadAll,
      sampleUnresolvedDetails, processSignatureExpiration, decryptMessageVerify_verdict,
      sampleExpired]

/-- C4, amended: for every successfully decrypted signed message whose signer
key the engine resolved (SignedBy is not nil) and whose signer key-id is found
among the supplied verifier keys, decryptMessageVerify returns the recovered
plaintext and no error, with verdict ok and an empty message when the signature
error is nil after the expiration policy has been applied, and otherwise with
verdict failed and the message equal to the text of that signature error. -/
theorem decryptMessageVerify_matched_signer (eng : Engine) (encryptedText : String)
    (verifierKey : List UInt8) (entries : EntityList) (ring : KeyRing) (passphrase : String)
    (verifyTime : Int) (md md' : MessageDetails) (b : String)
    (hkey : verifierKey ≠ [])
    (hring : eng.ReadKeyRing verifierKey = .ok (some entries))
    (hdec : decryptCore eng encryptedText (some entries) ring.entities passphrase 0 = .ok md)
    (hread : ReadAll md.UnverifiedBody = .ok b)
    (hpol : processSignatureExpiration eng md verifyTime = .done md')
    (hsigned : md.IsSigned = true)
    (hby : md.SignedBy ≠ none)
    (hmatch : 0 < (eng.KeysById entries md.SignedByKeyId).length) :
    decryptMessageVerify eng encryptedText verifierKey (some ring) passphrase verifyTime =
      .done (.ok (match md'.SignatureError with
        | none => { Plaintext := b, Verify := .ok, Message := "" }
        | some e => { Plaintext := b, Verify := .failed, Message := e.Error })) := by
  obtain ⟨h1, h2, h3⟩ :=
    processSignatureExpiration_frame md md' (processSignatureExpiration_done_cases _ _ _ _ hpol)
  have hlen : 0 < verifierKey.length := List.length_pos.mpr hkey
  have hby' : md'.SignedBy.isSome = true := by
    rw [h2]; exact Option.isSome_iff_ne_none.mpr hby
  simp only [decryptMessageVerify, gt_iff_lt, hlen, if_true, hring, hdec, hread, hpol,
    decryptMessageVerify_verdict, h1, hsigned, hby', h3, hmatch]

/-- Witness of C4, amended: the sample message signed by key 7, whose signature
the engine reports as expired, verified against the ring holding key 7 at the
instant 2000000, after the end of the window. -/
theorem decryptMessageVerify_matched_signer_witness :
    decryptMessageVerify (sampleEngineReading sampleExpiredDetails) "armored" [1]
        (some sampleDecryptionRing) "secret" 2000000 =
      .done (.ok { Plaintext := "hello", Verify := .failed,
                   Message := "openpgp: signature expired" }) :=
  decryptMessageVerify_matched_signer (sampleEngineReading sampleExpiredDetails) "armored" [1]
    [{ KeyId := 7, PrivateKey := none, Subkeys := [] }] sampleDecryptionRing "secret" 2000000
    sampleExpiredDetails sampleExpiredDetails "hello"
    (by decide) rfl (by simp [decryptCore, sampleEngineReading, sampleEngine]) rfl
    (by simp [processSignatureExpiration, sampleEngineReading, sampleEngine,
          sampleExpiredDetails, wrapInt64])
    rfl (by decide) (by decide)

/-- C5: for every successfully decrypted signed message, when no verifier key is
supplied (verifierKey is empty), decryptMessageVerify returns the plaintext
with verdict noVerifier, which is neither ok nor failed, whatever the signature
error and verifyInstant are. The engine is taken to report the expired
condition only together with the signature packet. -/
theorem decryptMessageVerify_no_verifier_key (eng : Engine) (encryptedText : String)
    (ring : KeyRing) (passphrase : String) (verifyTime : Int) (md : MessageDetails) (b : String)
    (hdec : decryptCore eng encryptedText none ring.entities passphrase 0 = .ok md)
    (hread : ReadAll md.UnverifiedBody = .ok b)
    (hwf : md.SignatureError = some eng.ErrSignatureExpired → md.Signature ≠ none)
    (hsigned : md.IsSigned = true) :
    decryptMessageVerify eng encryptedText [] (some ring) passphrase verifyTime =
        .done (.ok { Plaintext := b, Verify := .noVerifier, Message := "" }) ∧
      Verdict.noVerifier ≠ Verdict.ok ∧ Verdict.noVerifier ≠ Verdict.failed := by
  obtain ⟨md', hpol⟩ := processSignatureExpiration_total eng md verifyTime hwf
  obtain ⟨h1, h2, h3⟩ :=
    processSignatureExpiration_frame md md' (processSignatureExpiration_done_cases _ _ _ _ hpol)
  refine ⟨?_, by decide, by decide⟩
  simp only [decryptMessageVerify, List.length_nil, gt_iff_lt, lt_self_iff_false, if_false,
    hdec, hread, hpol, decryptMessageVerify_verdict, h1, hsigned, if_true]
  split <;> rfl

/-- Witness of C5: the sample signed message with the expired signature, no
verifier key, instant 2000000. -/
theorem decryptMessageVerify_no_verifier_key_witness :
    decryptMessageVerify (sampleEngineReading sampleExpiredDetails) "armored" []
        (some sampleDecryptionRing) "secret" 2000000 =
        .done (.ok { Plaintext := "hello", Verify := .noVerifier, Message := "" }) ∧
      Verdict.noVerifier ≠ Verdict.ok ∧ Verdict.noVerifier ≠ Verdict.failed :=
  decryptMessageVerify_no_verifier_key (sampleEngineReading sampleExpiredDetails) "armored"
    sampleDecryptionRing "secret" 2000000 sampleExpiredDetails "hello"
    (by simp [decryptCore, sampleEngineReading, sampleEngine]) rfl (by decide) rfl

/-- C6, counterexample: the message is signed by key 9, which the engine
resolved from the decryption ring; the supplied verifier ring holds the entity
7 only, so the key-id lookup returns no match; the verdict is failed (with an
empty message), not noVerifier. -/
theorem decryptMessageVerify_no_match_failed :
    (sampleEngineReading sampleOwnKeyDetails).ReadKeyRing [1] =
      .ok (some [{ KeyId := 7, PrivateKey := none, Subkeys := [] }]) ∧
    decryptCore (sampleEngineReading sampleOwnKeyDetails) "armored"
        (some [{ KeyId := 7, PrivateKey := none, Subkeys := [] }])
        sampleDecryptionRing.entities "secret" 0 = .ok sampleOwnKeyDetails ∧
    sampleOwnKeyDetails.IsSigned = true ∧
    (sampleEngineReading sampleOwnKeyDetails).KeysById
        [{ KeyId := 7, PrivateKey := none, Subkeys := [] }]
        sampleOwnKeyDetails.SignedByKeyId = [] ∧
    decryptMessageVerify (sampleEngineReading sampleOwnKeyDetails) "armored" [1]
        (some sampleDecryptionRing) "secret" 0 =
      .done (.ok { Plaintext := "hello", Verify := .failed, Message := "" }) := by
  refine ⟨rfl, ?_, rfl, by decide, ?_⟩
  · simp [decryptCore, sampleEngineReading, sampleEngine]
  · simp [decryptMessageVerify, decryptCore, sampleEngineReading, sampleEngine, ReadAll,
      sampleOwnKeyDetails, processSignatureExpiration, decryptMessageVerify_verdict,
      sampleExpired]

/-- C6, amended: for every successfully decrypted signed message and every
supplied verifier key ring in which the signer key-id is not found (the key-id
lookup returns no match), decryptMessageVerify returns the plaintext with an
empty message and with verdict noVerifier when the engine resolved no signer
key (SignedBy is nil); when the engine did resolve the signer key, the verdict
is failed, the value the result was initialised with. The engine is taken to
report the expired condition only together with the signature packet. -/
theorem decryptMessageVerify_signer_not_among_verifiers (eng : Engine)
    (encryptedText : String) (verifierKey : List UInt8) (entries : EntityList) (ring : KeyRing)
    (passphrase : String) (verifyTime : Int) (md : MessageDetails) (b : String)
    (hkey : verifierKey ≠ [])
    (hring : eng.ReadKeyRing verifierKey = .ok (some entries))
    (hdec : decryptCore eng encryptedText (some entries) ring.entities passphrase 0 = .ok md)
    (hread : ReadAll md.UnverifiedBody = .ok b)
    (hwf : md.SignatureError = some eng.ErrSignatureExpired → md.Signature ≠ none)
    (hsigned : md.IsSigned = true)
    (hnomatch : eng.KeysById entries md.SignedByKeyId = []) :
    (md.SignedBy = none →
      decryptMessageVerify eng encryptedText verifierKey (some ring) passphrase verifyTime =
        .done (.ok { Plaintext := b, Verify := .noVerifier, Message := "" })) ∧
    (md.SignedBy ≠ none →
      decryptMessageVerify eng encryptedText verifierKey (some ring) passphrase verifyTime =
        .done (.ok { Plaintext := b, Verify := .failed, Message := "" })) := by
  obtain ⟨md', hpol⟩ := processSignatureExpiration_total eng md verifyTime hwf
  obtain ⟨h1, h2, h3⟩ :=
    processSignatureExpiration_frame md md' (processSignatureExpiration_done_cases _ _ _ _ hpol)
  have hlen : 0 < verifierKey.length := List.length_pos.mpr hkey
  constructor
  · intro hby
    simp [decryptMessageVerify, hlen, hring, hdec, hread, hpol,
      decryptMessageVerify_verdict, h1, hsigned, h2, hby]
  · intro hby
    have hby' : md.SignedBy.isSome = true := Option.isSome_iff_ne_none.mpr hby
    simp [decryptMessageVerify, hlen, hring, hdec, hread, hpol,
      decryptMessageVerify_verdict, h1, hsigned, h2, hby', h3, hnomatch]

/-- Witness of C6, amended: the sample message signed by the unknown key 8,
against the verifier ring holding the entity 7. -/
theorem decryptMessageVerify_signer_not_among_verifiers_witness :
    decryptMessageVerify (sampleEngineReading sampleUnknownSignerDetails) "armored" [1]
        (some sampleDecryptionRing) "secret" 1000100 =
      .done (.ok { Plaintext := "hello", Verify := .noVerifier, Message := "" }) :=
  (decryptMessageVerify_signer_not_among_verifiers
    (sampleEngineReading sampleUnknownSignerDetails)
    "armored" [1] [{ KeyId := 7, PrivateKey := none, Subkeys := [] }] sampleDecryptionRing
    "secret" 1000100 sampleUnknownSignerDetails "hello"
    (by decide) rfl (by simp [decryptCore, sampleEngineReading, sampleEngine]) rfl
    (by decide) rfl (by decide)).1 rfl

/-- C7: for every successfully decrypted message that carries no signature,
decryptMessageVerify returns the plaintext with verdict notSigned, whether no
verifier key was supplied or a verifier key ring was supplied and parsed, and
whatever verifyInstant is. The engine is taken to report the expired condition
only together with the signature packet. -/
theorem decryptMessageVerify_unsigned (eng : Engine) (encryptedText : String)
    (verifierKey : List UInt8) (verifierEntries : Option EntityList) (ring : KeyRing)
    (passphrase : String) (verifyTime : Int) (md : MessageDetails) (b : String)
    (hver : (verifierKey = [] ∧ verifierEntries = none) ∨
      (verifierKey ≠ [] ∧ eng.ReadKeyRing verifierKey = .ok verifierEntries))
    (hdec : decryptCore eng encryptedText verifierEntries ring.entities passphrase 0 = .ok md)
    (hread : ReadAll md.UnverifiedBody = .ok b)
    (hwf : md.SignatureError = some eng.ErrSignatureExpired → md.Signature ≠ none)
    (hunsigned : md.IsSigned = false) :
    decryptMessageVerify eng encryptedText verifierKey (some ring) passphrase verifyTime =
      .done (.ok { Plaintext := b, Verify := .notSigned, Message := "" }) := by
  obtain ⟨md', hpol⟩ := processSignatureExpiration_total eng md verifyTime hwf
  obtain ⟨h1, h2, h3⟩ :=
    processSignatureExpiration_frame md md' (processSignatureExpiration_done_cases _ _ _ _ hpol)
  rcases hver with ⟨hk, hv⟩ | ⟨hk, hv⟩
  · subst hk; subst hv
    simp [decryptMessageVerify, hdec, hread, hpol, decryptMessageVerify_verdict, h1, hunsigned]
  · have hlen : 0 < verifierKey.length := List.length_pos.mpr hk
    simp [decryptMessageVerify, hlen, hv, hdec, hread, hpol, decryptMessageVerify_verdict, h1,
      hunsigned]

/-- Witness of C7: the sample engine reads every message as unsigned; a verifier
key ring is supplied. -/
theorem decryptMessageVerify_unsigned_witness :
    decryptMessageVerify sampleEngine "armored" [1] (some sampleDecryptionRing) "secret"
        1000100 =
      .done (.ok { Plaintext := "hello", Verify := .notSigned, Message := "" }) :=
  decryptMessageVerify_unsigned sampleEngine "armored" [1]
    (some [{ KeyId := 7, PrivateKey := none, Subkeys := [] }]) sampleDecryptionRing "secret"
    1000100
    { IsSigned := false, SignedByKeyId := 0, SignedBy := none,
      UnverifiedBody := { data := "hello", err := none },
      SignatureError := none, Signature := none }
    "hello"
    (Or.inr ⟨by decide, rfl⟩) (by simp [decryptCore, sampleEngine]) rfl (by decide) rfl

/-- C8, what the code does: whenever decryptCore fails, returning (nil, err),
decryptMessageVerify does not return err; it dereferences the nil message
details and panics. -/
theorem decryptMessageVerify_decrypt_failure_panics (eng : Engine) (encryptedText : String)
    (verifierKey : List UInt8) (verifierEntries : Option EntityList) (ring : KeyRing)
    (passphrase : String) (verifyTime : Int) (err : GoError)
    (hver : (verifierKey = [] ∧ verifierEntries = none) ∨
      (verifierKey ≠ [] ∧ eng.ReadKeyRing verifierKey = .ok verifierEntries))
    (hdec : decryptCore eng encryptedText verifierEntries ring.entities passphrase 0 =
      .error err) :
    decryptMessageVerify eng encryptedText verifierKey (some ring) passphrase verifyTime =
        .panicked ∧
      decryptMessageVerify eng encryptedText verifierKey (some ring) passphrase verifyTime ≠
        .done (.error err) := by
  have hp : decryptMessageVerify eng encryptedText verifierKey (some ring) passphrase
      verifyTime = .panicked := by
    rcases hver with ⟨hk, hv⟩ | ⟨hk, hv⟩
    · subst hk; subst hv
      simp [decryptMessageVerify, hdec]
    · have hlen : 0 < verifierKey.length := List.length_pos.mpr hk
      simp [decryptMessageVerify, hlen, hv, hdec]
  exact ⟨hp, by rw [hp]; exact fun h => Run.noConfusion h⟩

/-- Witness of C8: the empty text does not unarmor, decryptCore returns the
error of Unarmor, and decryptMessageVerify panics. -/
theorem decryptMessageVerify_decrypt_failure_panics_witness :
    decryptCore sampleEngine "" none sampleDecryptionRing.entities "secret" 0 =
        .error ⟨"*errors.errorString", "EOF"⟩ ∧
      decryptMessageVerify sampleEngine "" [] (some sampleDecryptionRing) "secret" 0 =
        .panicked ∧
      decryptMessageVerify sampleEngine "" [] (some sampleDecryptionRing) "secret" 0 ≠
        .done (.error ⟨"*errors.errorString", "EOF"⟩) :=
  ⟨by simp [decryptCore, sampleEngine],
    decryptMessageVerify_decrypt_failure_panics sampleEngine "" [] none sampleDecryptionRing
      "secret" 0 ⟨"*errors.errorString", "EOF"⟩ (Or.inl ⟨rfl, rfl⟩)
      (by simp [decryptCore, sampleEngine])⟩

/-! ## Theorems on EncryptMessage -/

theorem len_pos_of_ne_empty (s : String) (h : s ≠ "") : 0 < len s := by
  obtain ⟨cs⟩ := s
  cases cs with
  | nil => exact absurd rfl h
  | cons c cs =>
    have hc := Char.utf8Size_pos c
    simp only [len, String.utf8ByteSize, String.utf8ByteSize.go]
    omega

theorem EncryptMessage_signerLoop_none (eng : Engine) (passphrase : String) (ring : EntityList)
    (h : ∀ e ∈ ring, qualifiesAsSigner eng passphrase e = false) :
    EncryptMessage_signerLoop eng passphrase ring = none := by
  induction ring with
  | nil => rfl
  | cons e rest ih =>
    have he := h e (List.mem_cons_self e rest)
    have hrest := ih (fun x hx => h x (List.mem_cons_of_mem e hx))
    unfold EncryptMessage_signerLoop
    cases hk : e.PrivateKey with
    | none => simpa using hrest
    | some pk =>
      simp only [qualifiesAsSigner, hk, keyAfterAttempt, Bool.not_eq_false'] at he
      simp only [he, Bool.not_true]
      simpa using hrest

theorem EncryptMessage_signerLoop_find (eng : Engine) (passphrase : String) (ring : EntityList)
    (e : Entity) (h : ring.find? (qualifiesAsSigner eng passphrase) = some e) :
    EncryptMessage_signerLoop eng passphrase ring =
      some { e with PrivateKey := e.PrivateKey.map (keyAfterAttempt eng passphrase) } := by
  induction ring with
  | nil => simp at h
  | cons x rest ih =>
    rw [List.find?_cons] at h
    unfold EncryptMessage_signerLoop
    cases hq : qualifiesAsSigner eng passphrase x with
    | true =>
      rw [hq] at h
      have hx : x = e := by simpa using h
      subst hx
      cases hk : x.PrivateKey with
      | none => simp [qualifiesAsSigner, hk] at hq
      | some pk =>
        simp only [qualifiesAsSigner, hk, keyAfterAttempt, Bool.not_eq_true'] at hq
        simp [hq, keyAfterAttempt]
    | false =>
      rw [hq] at h
      have hrest := ih h
      cases hk : x.PrivateKey with
      | none => simpa using hrest
      | some pk =>
        simp only [qualifiesAsSigner, hk, keyAfterAttempt, Bool.not_eq_false'] at hq
        simp only [hq, Bool.not_true]
        simpa using hrest

/-- C9: for every call of EncryptMessage with a non-empty passphrase and a
non-empty signing key ring (the armor writer having been opened), the signer
handed to the encryption is the first entity in ring order that has private
key material and is unlocked after the unlock attempt with the passphrase,
carrying its key as the attempt left it; if no entity of the ring qualifies,
EncryptMessage returns the empty string and the error "cannot sign message,
signer key is not unlocked". -/
theorem EncryptMessage_signer_choice (eng : Engine) (pm : PmCrypto) (plainText : String)
    (publicKey : Option KeyRing) (ring : KeyRing) (passphrase : String) (trim : Bool)
    (w : ArmorWriter)
    (hpass : passphrase ≠ "")
    (hring : ring.entities ≠ [])
    (harmor : eng.armorEncode eng.PGP_MESSAGE_HEADER eng.ArmorHeaders = .ok w) :
    (∀ e, ring.entities.find? (qualifiesAsSigner eng passphrase) = some e →
      EncryptMessage eng pm plainText publicKey (some ring) passphrase trim =
        EncryptMessage_finish eng pm w publicKey
          (some { e with PrivateKey := e.PrivateKey.map (keyAfterAttempt eng passphrase) })
          (if trim then eng.TrimNewlines plainText else plainText)) ∧
    ((∀ e ∈ ring.entities, qualifiesAsSigner eng passphrase e = false) →
      EncryptMessage eng pm plainText publicKey (some ring) passphrase trim =
        .done ("", some (errorsNew "cannot sign message, signer key is not unlocked"))) := by
  have hlen : 0 < len passphrase := len_pos_of_ne_empty passphrase hpass
  have hrl : 0 < ring.entities.length := List.length_pos.mpr hring
  constructor
  · intro e he
    have hloop := EncryptMessage_signerLoop_find eng passphrase ring.entities e he
    simp only [EncryptMessage, harmor, gt_iff_lt, hlen, hrl, if_true, hloop]
  · intro hnone
    have hloop := EncryptMessage_signerLoop_none eng passphrase ring.entities hnone
    simp only [EncryptMessage, harmor, gt_iff_lt, hlen, hrl, if_true, hloop]

/-- Witness of C9: in the sample signing ring the passphrase "secret" fails on
entity 2, entity 4 has no private key, and entity 5 is the first that unlocks:
it signs, unlocked. -/
theorem EncryptMessage_signer_choice_witness :
    sampleSigningRing.entities.find? (qualifiesAsSigner sampleEngine "secret") =
        some { KeyId := 5, PrivateKey := some ⟨5, true⟩, Subkeys := [⟨6, some ⟨6, true⟩⟩] } ∧
    EncryptMessage sampleEngine ⟨0⟩ "hi" (some samplePublicRing) (some sampleSigningRing)
        "secret" false =
      EncryptMessage_finish sampleEngine ⟨0⟩ ⟨"PGP MESSAGE", []⟩ (some samplePublicRing)
        (some { KeyId := 5, PrivateKey := some ⟨5, false⟩, Subkeys := [⟨6, some ⟨6, true⟩⟩] })
        "hi" :=
  ⟨by decide,
    (EncryptMessage_signer_choice sampleEngine ⟨0⟩ "hi" (some samplePublicRing)
      sampleSigningRing "secret" false ⟨"PGP MESSAGE", []⟩ (by decide) (by decide) rfl).1
      { KeyId := 5, PrivateKey := some ⟨5, true⟩, Subkeys := [⟨6, some ⟨6, true⟩⟩] }
      (by decide)⟩

/-! ## Theorems on the unlock loop of decryptCore -/

theorem keyAfterUnlock_none (eng : Engine) (passphrase : String) :
    KeyAfterUnlock eng passphrase none none :=
  ⟨fun _ => rfl, fun _ h => absurd h (by simp), fun _ h => absurd h (by simp),
    fun _ h => absurd h (by simp)⟩

theorem keyAfterUnlock_untouched (eng : Engine) (passphrase : String) (pk : PrivateKey)
    (h : pk.Encrypted = false) : KeyAfterUnlock eng passphrase (some pk) (some pk) := by
  refine ⟨fun hn => absurd hn (by simp), ?_, ?_, ?_⟩
  · intro pk0 h0 _
    rw [Option.some.inj h0]
  · intro pk0 h0 h1
    rw [← Option.some.inj h0, h] at h1
    exact absurd h1 (by simp)
  · intro pk0 _ _
    exact ⟨pk, rfl, h⟩

theorem keyAfterUnlock_attempted (eng : Engine) (passphrase : String) (pk : PrivateKey)
    (h : pk.Encrypted = true) :
    KeyAfterUnlock eng passphrase (some pk) (some (eng.Decrypt pk passphrase).1) := by
  refine ⟨fun hn => absurd hn (by simp), ?_, ?_, ?_⟩
  · intro pk0 h0 h1
    rw [← Option.some.inj h0, h] at h1
    exact absurd h1 (by simp)
  · intro pk0 h0 _
    rw [Option.some.inj h0]
  · intro pk0 h0 h1
    rw [← Option.some.inj h0] at h1
    exact ⟨_, rfl, h1⟩

theorem decryptCore_unlockSubkeys_spec (eng : Engine) (passphrase : String)
    (subs : List Subkey) :
    (decryptCore_unlockSubkeys eng passphrase subs).length = subs.length ∧
    ∀ (j : Nat) (sub : Subkey), subs[j]? = some sub →
      ∃ sub', (decryptCore_unlockSubkeys eng passphrase subs)[j]? = some sub' ∧
        sub'.KeyId = sub.KeyId ∧
        KeyAfterUnlock eng passphrase sub.PrivateKey sub'.PrivateKey := by
  induction subs with
  | nil => exact ⟨rfl, fun j sub h => by simp at h⟩
  | cons s rest ih =>
    obtain ⟨ihlen, ihget⟩ := ih
    refine ⟨by simp [decryptCore_unlockSubkeys, ihlen], ?_⟩
    intro j sub hj
    cases j with
    | zero =>
      have hs : s = sub := by simpa using hj
      subst hs
      cases hk : s.PrivateKey with
      | none =>
        refine ⟨s, by simp [decryptCore_unlockSubkeys, hk], rfl, ?_⟩
        rw [hk]; exact keyAfterUnlock_none eng passphrase
      | some pk =>
        cases he : pk.Encrypted with
        | false =>
          refine ⟨s, by simp [decryptCore_unlockSubkeys, hk, he], rfl, ?_⟩
          rw [hk]; exact keyAfterUnlock_untouched eng passphrase pk he
        | true =>
          refine ⟨{ s with PrivateKey := some (eng.Decrypt pk passphrase).1 },
            by simp [decryptCore_unlockSubkeys, hk, he], rfl, ?_⟩
          exact keyAfterUnlock_attempted eng passphrase pk he
    | succ j =>
      have hj' : rest[j]? = some sub := by simpa using hj
      obtain ⟨sub', h1, h2, h3⟩ := ihget j sub hj'
      exact ⟨sub', by simpa [decryptCore_unlockSubkeys] using h1, h2, h3⟩

/-- C10: for every decryption key ring and passphrase, the unlock loop of
decryptCore returns a ring of the same length in which, at every position,
the entity keeps its key id and its number of subkeys, and the primary private
key and every subkey private key are as follows: an absent key is still
absent, an unencrypted key is untouched, an encrypted key is replaced by the
result of the decryption attempt with the passphrase, and every key the
passphrase unlocks is unlocked, whatever its position in the ring and whatever
the attempt did on the other keys. -/
theorem decryptCore_unlock_every_key (eng : Engine) (passphrase : String) (ring : EntityList) :
    (decryptCore_unlock eng passphrase ring).length = ring.length ∧
    ∀ (i : Nat) (e : Entity), ring[i]? = some e →
      ∃ e', (decryptCore_unlock eng passphrase ring)[i]? = some e' ∧
        e'.KeyId = e.KeyId ∧
        KeyAfterUnlock eng passphrase e.PrivateKey e'.PrivateKey ∧
        e'.Subkeys.length = e.Subkeys.length ∧
        ∀ (j : Nat) (sub : Subkey), e.Subkeys[j]? = some sub →
          ∃ sub', e'.Subkeys[j]? = some sub' ∧ sub'.KeyId = sub.KeyId ∧
            KeyAfterUnlock eng passphrase sub.PrivateKey sub'.PrivateKey := by
  induction ring with
  | nil => exact ⟨rfl, fun i e h => by simp at h⟩
  | cons x rest ih =>
    obtain ⟨ihlen, ihget⟩ := ih
    refine ⟨by simp [decryptCore_unlock, ihlen], ?_⟩
    intro i e hi
    cases i with
    | zero =>
      have hx : x = e := by simpa using hi
      subst hx
      obtain ⟨hslen, hsget⟩ := decryptCore_unlockSubkeys_spec eng passphrase x.Subkeys
      cases hk : x.PrivateKey with
      | none =>
        refine ⟨{ x with Subkeys := decryptCore_unlockSubkeys eng passphrase x.Subkeys },
          by simp [decryptCore_unlock, hk], rfl, ?_, hslen, hsget⟩
        simp only [hk]; exact keyAfterUnlock_none eng passphrase
      | some pk =>
        cases he : pk.Encrypted with
        | false =>
          refine ⟨{ x with Subkeys := decryptCore_unlockSubkeys eng passphrase x.Subkeys },
            by simp [decryptCore_unlock, hk, he], rfl, ?_, hslen, hsget⟩
          simp only [hk]; exact keyAfterUnlock_untouched eng passphrase pk he
        | true =>
          refine ⟨{ x with PrivateKey := some (eng.Decrypt pk passphrase).1,
                           Subkeys := decryptCore_unlockSubkeys eng passphrase x.Subkeys },
            by simp [decryptCore_unlock, hk, he], rfl, ?_, hslen, hsget⟩
          exact keyAfterUnlock_attempted eng passphrase pk he
    | succ i =>
      have hi' : rest[i]? = some e := by simpa using hi
      obtain ⟨e', h1, h2⟩ := ihget i e hi'
      exact ⟨e', by simpa [decryptCore_unlock] using h1, h2⟩

/-- Witness of C10: in the sample signing ring, entity 5 at position 2 is
locked and the passphrase "secret" unlocks it, though the attempt on entity 2
before it failed. -/
theorem decryptCore_unlock_every_key_witness :
    ∃ e', (decryptCore_unlock sampleEngine "secret" sampleSigningRing.entities)[2]? = some e' ∧
      e'.KeyId = 5 ∧
      KeyAfterUnlock sampleEngine "secret" (some ⟨5, true⟩) e'.PrivateKey ∧
      e'.Subkeys.length = 1 ∧
      ∀ (j : Nat) (sub : Subkey), [(⟨6, some ⟨6, true⟩⟩ : Subkey)][j]? = some sub →
        ∃ sub', e'.Subkeys[j]? = some sub' ∧ sub'.KeyId = sub.KeyId ∧
          KeyAfterUnlock sampleEngine "secret" sub.PrivateKey sub'.PrivateKey :=
  (decryptCore_unlock_every_key sampleEngine "secret" sampleSigningRing.entities).2 2
    { KeyId := 5, PrivateKey := some ⟨5, true⟩, Subkeys := [⟨6, some ⟨6, true⟩⟩] } rfl

end Gopenpgp
